import Mathlib

/-!
Verification of the mapping-rule core of `importer_app/static/js/mapping_data.js`.

The JavaScript source is shallowly embedded: DOM row state becomes an explicit
`RowState` record holding the values the code reads back from the widgets,
the in-memory rule collection `allRules` becomes a `List Rule`, and the
JavaScript string operations used by the code (`String.prototype.includes`,
`startsWith`, `toLowerCase`, `split`, `localeCompare`) are modelled as
executable functions on the underlying character lists.
-/

namespace MappingData

/-- JS `String.prototype.includes`: search for the character sequence of the
second string anywhere inside the first. -/
def charsSearch (pat : List Char) : List Char → Bool
  | [] => List.isPrefixOf pat []
  | c :: rest => List.isPrefixOf pat (c :: rest) || charsSearch pat rest

/-- JS `s.includes(pat)`. -/
def jsIncludes (s pat : String) : Bool :=
  charsSearch pat.data s.data

/-- JS `s.startsWith(pat)`. -/
def jsStartsWith (s pat : String) : Bool :=
  List.isPrefixOf pat.data s.data

/-- JS `s.toLowerCase()` (ASCII case folding, which covers every string the
source applies it to). -/
def jsToLowerCase (s : String) : String :=
  String.mk (s.data.map Char.toLower)

/-- JS `s.split(sep)` for a one-character separator, on character lists. -/
def splitCharsOn (sep : Char) : List Char → List Char → List String
  | [], acc => [String.mk acc.reverse]
  | c :: rest, acc =>
    if c = sep then String.mk acc.reverse :: splitCharsOn sep rest []
    else splitCharsOn sep rest (c :: acc)

/-- JS `s.split(',')`. -/
def jsSplitComma (s : String) : List String :=
  splitCharsOn ',' s.data []

/-- Lexicographic comparison of character lists; models
`a.localeCompare(b) <= 0` for the ASCII names the source compares. -/
def lexLe : List Char → List Char → Bool
  | [], _ => true
  | _ :: _, [] => false
  | a :: as, b :: bs => if a = b then lexLe as bs else decide (a < b)

/-- String comparison used to model `localeCompare` in the rule sort. -/
def jsStringLe (a b : String) : Bool :=
  lexLe a.data b.data

/-- `ALL_ROLES` constant (line 9 of the source). -/
def ALL_ROLES : List String :=
  ["header", "item", "line", "account", "ignore"]

/-- `ALL_SOURCE_TYPES` constant (line 10 of the source). -/
def ALL_SOURCE_TYPES : List String :=
  ["CSV", "CSV Formula", "Text Override", "Link"]

/-- `FIELD_ROLE_ORDER[role] || 99` (line 18 of the source and the sort
comparator in `renderRules`). -/
def roleOrderJs (role : String) : Nat :=
  if role = "header" then 1
  else if role = "item" then 2
  else if role = "line" then 3
  else if role = "account" then 4
  else if role = "ignore" then 5
  else 99

/-- A rule record as held in `allRules` (the JSON shape fetched from the
Mapping Rules API, restricted to the fields the script reads). -/
structure Rule where
  id : String
  rule_name : String
  field_role : String
  destination_field : String
  source_type_options : String
  is_required : Bool := false
  is_hidden : Bool := false
  is_base_rule : Bool := false
  link_table_lookup : Option String := none
  link_field_lookup : Option String := none
  formula_template : Option String := none
  static_value : Option String := none
  default_transformation : Option String := none
deriving DecidableEq

/-- The widget state of one table row, i.e. exactly the values
`getRulePayload` reads back from the DOM: `row.dataset.id`, the
`data-field` inputs, and the dynamic auxiliary editor when present
(`none` models an absent element, `some ""` an empty one). -/
structure RowState where
  dataset_id : String
  rule_name : String
  field_role : String
  destination_field : String
  source_type_options : List String
  is_required : Option Bool
  is_hidden : Bool
  is_base_rule : Bool
  default_transformation : String
  link_source_value : Option String := none
  formula_input : Option String := none
  text_override_input : Option String := none
deriving DecidableEq

/-- The object literal returned by `getRulePayload` (lines 126-141). -/
structure RulePayload where
  id : Option String
  rule_name : String
  field_role : String
  destination_field : String
  source_type_options : String
  rule_type : String
  is_required : Bool
  is_hidden : Bool
  is_base_rule : Bool
  link_table_lookup : Option String
  link_field_lookup : Option String
  formula_template : Option String
  static_value : Option String
  default_transformation : Option String
deriving DecidableEq

/-- Which auxiliary editor `updateSourceDetailsDisplay` renders (lines
52-83): the link picker, the formula editor, the static-text input, the
plain CSV column label, or the dash placeholder. -/
inductive SourceEditor where
  | linkPicker
  | formulaEditor
  | textOverrideInput
  | csvLabel
  | dash
deriving DecidableEq

/-- The branch selection of `updateSourceDetailsDisplay` (lines 53-82): the
selected option values are lowercased and tested in the fixed order
link, csv formula, text override, csv; anything else degrades to the
dash placeholder. -/
def updateSourceDetailsBranch (selectedValues : List String) : SourceEditor :=
  if (selectedValues.map jsToLowerCase).contains "link" then SourceEditor.linkPicker
  else if (selectedValues.map jsToLowerCase).contains "csv formula" then SourceEditor.formulaEditor
  else if (selectedValues.map jsToLowerCase).contains "text override" then SourceEditor.textOverrideInput
  else if (selectedValues.map jsToLowerCase).contains "csv" then SourceEditor.csvLabel
  else SourceEditor.dash

/-- The `tableMap` of `getRulePayload` (line 113): `tableMap[role] || null`. -/
def forwardTableMap (role : String) : Option String :=
  if role = "header" then some "supplier_invoice_headers"
  else if role = "item" then some "supplier_invoice_items"
  else if role = "line" then some "supplier_invoice_lines"
  else if role = "account" then some "supplier_account"
  else none

/-- The denormalized pointer emitted for a linked rule (lines 113-115):
table from the fixed role map, field from the target rule. -/
def forwardLookup (linkedRule : Rule) : Option String × Option String :=
  (forwardTableMap linkedRule.field_role, some linkedRule.destination_field)

/-- The inverse `tableMap` of `createRuleRow` (line 175):
`tableMap[table]` yielding a role, or `undefined` for unknown tables. -/
def reverseTableMap (table : String) : Option String :=
  if table = "supplier_invoice_headers" then some "header"
  else if table = "supplier_invoice_items" then some "item"
  else if table = "supplier_invoice_lines" then some "line"
  else if table = "supplier_account" then some "account"
  else none

/-- The scan of line 176: the first rule whose role maps to the stored
table and whose destination field equals the stored field. -/
def reverseLookupId (allRules : List Rule) (table field : String) : Option String :=
  (allRules.find? fun r =>
    (reverseTableMap table == some r.field_role) && (r.destination_field == field)).map Rule.id

/-- JS truthiness of a nullable string: `null`, `undefined` and `""` are
falsy. -/
def jsTruthyOptStr : Option String → Bool
  | some s => s != ""
  | none => false

/-- Lines 174-178 of `createRuleRow`: the linked-rule id is reconstructed
only when both stored pointer halves are truthy, by the first-match scan. -/
def reconstructLinkedRuleId (allRules : List Rule) (table field : Option String) : Option String :=
  if jsTruthyOptStr table && jsTruthyOptStr field then
    reverseLookupId allRules (table.getD "") (field.getD "")
  else none

/-- The Rule Payload Builder `getRulePayload` (lines 102-142), with the DOM
reads replaced by the corresponding `RowState` fields.  The auxiliary
quadruple is (link_table_lookup, link_field_lookup, formula_template,
static_value). -/
def getRulePayload (allRules : List Rule) (row : RowState) : RulePayload :=
  let isBaseRule := row.is_base_rule
  let sourceTypeOptions := String.intercalate "," row.source_type_options
  let aux : Option String × Option String × Option String × Option String :=
    if jsIncludes sourceTypeOptions "Link" then
      match row.link_source_value with
      | some v =>
        if v = "" then (none, none, none, none)
        else
          match allRules.find? (fun r => r.id == v) with
          | some linkedRule =>
            ((forwardLookup linkedRule).1, (forwardLookup linkedRule).2, none, none)
          | none => (none, none, none, none)
      | none => (none, none, none, none)
    else if jsIncludes sourceTypeOptions "CSV Formula" then
      match row.formula_input with
      | some v => (none, none, if v = "" then none else some v, none)
      | none => (none, none, none, none)
    else if jsIncludes sourceTypeOptions "Text Override" then
      match row.text_override_input with
      | some v => (none, none, none, if v = "" then none else some v)
      | none => (none, none, none, none)
    else (none, none, none, none)
  { id :=
      if row.dataset_id ≠ "" ∧ ¬ jsStartsWith row.dataset_id "new_" = true then
        some row.dataset_id
      else none,
    rule_name := row.rule_name,
    field_role := row.field_role,
    destination_field := row.destination_field,
    source_type_options := sourceTypeOptions,
    rule_type := "user_set",
    is_required := isBaseRule || row.is_required.getD false,
    is_hidden := row.is_hidden,
    is_base_rule := isBaseRule,
    link_table_lookup := aux.1,
    link_field_lookup := aux.2.1,
    formula_template := aux.2.2.1,
    static_value := aux.2.2.2,
    default_transformation :=
      if row.default_transformation = "" then none else some row.default_transformation }

/-- C1: for every rule row state with is_base_rule checked, the payload
built by getRulePayload has is_required true regardless of the stored
is_required flag; with is_base_rule unchecked it equals the raw flag
state of the is_required checkbox (false when the checkbox is absent,
mirroring the guard in the source). -/
theorem c1_is_required_forced (allRules : List Rule) (row : RowState) :
    (row.is_base_rule = true → (getRulePayload allRules row).is_required = true) ∧
    (row.is_base_rule = false →
      (getRulePayload allRules row).is_required = row.is_required.getD false) := by
  constructor <;> intro h <;> simp [getRulePayload, h]

/-- A concrete base-rule row whose stored is_required flag is false. -/
def sampleRowBase : RowState :=
  { dataset_id := "5", rule_name := "Invoice Number", field_role := "header",
    destination_field := "invoice_number", source_type_options := ["CSV"],
    is_required := some false, is_hidden := false, is_base_rule := true,
    default_transformation := "" }

/-- A concrete additional-rule row. -/
def sampleRowAdd : RowState :=
  { dataset_id := "6", rule_name := "Notes", field_role := "header",
    destination_field := "notes", source_type_options := ["CSV"],
    is_required := some true, is_hidden := false, is_base_rule := false,
    default_transformation := "" }

/-- Witness for C1 at two concrete rows. -/
theorem c1_is_required_forced_witness :
    (getRulePayload [] sampleRowBase).is_required = true ∧
    (getRulePayload [] sampleRowAdd).is_required = (sampleRowAdd.is_required).getD false :=
  ⟨(c1_is_required_forced [] sampleRowBase).1 (by decide),
   (c1_is_required_forced [] sampleRowAdd).2 (by decide)⟩

/-- The per-element disabling logic of `toggleBaseRuleEditability`
(lines 337-348), expressed as editability (the negation of the
`disabled` assignment): `isBaseRow` is whether the row sits in the
base-rules table body, `isOverrideActive` the super-admin checkbox. -/
def isFieldEditable (field : String) (isBaseRow isOverrideActive : Bool) : Bool :=
  if field = "is_base_rule" then isOverrideActive
  else if field = "is_required" then !isBaseRow
  else !(isBaseRow && !isOverrideActive)

/-- C4: the is_base_rule field is editable exactly when the privileged
override is active; the is_required field is editable exactly when the
rule is not classified as a base rule; every other field is editable
unless the rule is a base rule and the override is inactive. -/
theorem c4_mutability_policy (b o : Bool) :
    (isFieldEditable "is_base_rule" b o = true ↔ o = true) ∧
    (isFieldEditable "is_required" b o = true ↔ b = false) ∧
    (∀ f : String, f ≠ "is_base_rule" → f ≠ "is_required" →
      (isFieldEditable f b o = true ↔ (b = false ∨ o = true))) := by
  refine ⟨by simp [isFieldEditable], by simp [isFieldEditable], ?_⟩
  intro f h1 h2
  cases b <;> cases o <;> simp [isFieldEditable, h1, h2]

/-- Witness for C4: a non-special field on a base row without override is
not editable, while the same field with the override active is. -/
theorem c4_mutability_policy_witness :
    (isFieldEditable "rule_name" true false = true ↔ (true = false ∨ false = true)) ∧
    (isFieldEditable "is_required" true true = true ↔ true = false) :=
  ⟨(c4_mutability_policy true false).2.2 "rule_name" (by decide) (by decide),
   (c4_mutability_policy true true).2.1⟩

lemma contains_of_mem {l : List String} {a : String} (h : a ∈ l) :
    l.contains a = true := by
  unfold List.contains
  exact List.elem_iff.mpr h

lemma mem_of_contains {l : List String} {a : String} (h : l.contains a = true) :
    a ∈ l := by
  unfold List.contains at h
  exact List.elem_iff.mp h

/-- Case analysis of the editor branch over the sixteen possible selected
subsets of the fixed source-kind option list: the CSV Formula case. -/
lemma branch_cases_formula :
    ∀ l ∈ ALL_SOURCE_TYPES.sublists,
      "Link" ∉ l → "CSV Formula" ∈ l →
        updateSourceDetailsBranch l = SourceEditor.formulaEditor := by
  decide

/-- Case analysis over the sixteen selected subsets: the Text Override case. -/
lemma branch_cases_text :
    ∀ l ∈ ALL_SOURCE_TYPES.sublists,
      "Link" ∉ l → "CSV Formula" ∉ l → "Text Override" ∈ l →
        updateSourceDetailsBranch l = SourceEditor.textOverrideInput := by
  decide

/-- Case analysis over the sixteen selected subsets: the CSV case. -/
lemma branch_cases_csv :
    ∀ l ∈ ALL_SOURCE_TYPES.sublists,
      "Link" ∉ l → "CSV Formula" ∉ l → "Text Override" ∉ l → "CSV" ∈ l →
        updateSourceDetailsBranch l = SourceEditor.csvLabel := by
  decide

lemma not_contains_lower_of_unrecognized {l : List String}
    (h : ∀ k ∈ l, jsToLowerCase k ∉ ALL_SOURCE_TYPES.map jsToLowerCase)
    {x : String} (hx : x ∈ ALL_SOURCE_TYPES.map jsToLowerCase) :
    (l.map jsToLowerCase).contains x = false := by
  by_contra hc
  rw [Bool.not_eq_false] at hc
  obtain ⟨k, hk, hkx⟩ := List.mem_map.mp (mem_of_contains hc)
  exact h k hk (hkx ▸ hx)

/-- C3: the auxiliary editor is chosen by the fixed priority
Link, then CSV Formula, then Text Override, then CSV; any set containing
Link resolves to the link picker, the empty set and sets made only of
unrecognized kind strings resolve to the dash placeholder. -/
theorem c3_active_kind_priority :
    (∀ l : List String, "Link" ∈ l →
      updateSourceDetailsBranch l = SourceEditor.linkPicker) ∧
    (∀ l : List String, l.Sublist ALL_SOURCE_TYPES → "Link" ∉ l → "CSV Formula" ∈ l →
      updateSourceDetailsBranch l = SourceEditor.formulaEditor) ∧
    (∀ l : List String, l.Sublist ALL_SOURCE_TYPES → "Link" ∉ l → "CSV Formula" ∉ l →
      "Text Override" ∈ l → updateSourceDetailsBranch l = SourceEditor.textOverrideInput) ∧
    (∀ l : List String, l.Sublist ALL_SOURCE_TYPES → "Link" ∉ l → "CSV Formula" ∉ l →
      "Text Override" ∉ l → "CSV" ∈ l → updateSourceDetailsBranch l = SourceEditor.csvLabel) ∧
    updateSourceDetailsBranch [] = SourceEditor.dash ∧
    (∀ l : List String, (∀ k ∈ l, jsToLowerCase k ∉ ALL_SOURCE_TYPES.map jsToLowerCase) →
      updateSourceDetailsBranch l = SourceEditor.dash) := by
  refine ⟨?_, ?_, ?_, ?_, by decide, ?_⟩
  · intro l hl
    have hmem : (l.map jsToLowerCase).contains "link" = true := by
      apply contains_of_mem
      have h := List.mem_map_of_mem jsToLowerCase hl
      have hlow : jsToLowerCase "Link" = "link" := by decide
      rwa [hlow] at h
    unfold updateSourceDetailsBranch
    rw [hmem]
    simp
  · intro l hsub
    exact branch_cases_formula l (List.mem_sublists.mpr hsub)
  · intro l hsub
    exact branch_cases_text l (List.mem_sublists.mpr hsub)
  · intro l hsub
    exact branch_cases_csv l (List.mem_sublists.mpr hsub)
  · intro l h
    have h1 := not_contains_lower_of_unrecognized h (x := "link") (by decide)
    have h2 := not_contains_lower_of_unrecognized h (x := "csv formula") (by decide)
    have h3 := not_contains_lower_of_unrecognized h (x := "text override") (by decide)
    have h4 := not_contains_lower_of_unrecognized h (x := "csv") (by decide)
    unfold updateSourceDetailsBranch
    rw [h1, h2, h3, h4]
    simp

/-- Witness for C3 at the three concrete selected sets named by the spec
plus a set with only an unrecognized kind. -/
theorem c3_active_kind_priority_witness :
    updateSourceDetailsBranch ["CSV", "Link"] = SourceEditor.linkPicker ∧
    updateSourceDetailsBranch ["CSV Formula", "Text Override"] = SourceEditor.formulaEditor ∧
    updateSourceDetailsBranch ["Legacy Kind"] = SourceEditor.dash :=
  ⟨c3_active_kind_priority.1 ["CSV", "Link"] (by decide),
   c3_active_kind_priority.2.1 ["CSV Formula", "Text Override"]
     (by decide) (by decide) (by decide),
   c3_active_kind_priority.2.2.2.2.2 ["Legacy Kind"] (by decide)⟩

/-- Over the sixteen possible selected subsets of the option list, the
substring test the payload builder runs on the comma-joined string agrees
with the membership test the display code runs on the lowercased values:
the Link case. -/
lemma includes_link_bridge :
    ∀ l ∈ ALL_SOURCE_TYPES.sublists,
      jsIncludes (String.intercalate "," l) "Link" =
        (l.map jsToLowerCase).contains "link" := by
  decide

/-- Substring test versus membership test: the CSV Formula case. -/
lemma includes_formula_bridge :
    ∀ l ∈ ALL_SOURCE_TYPES.sublists,
      jsIncludes (String.intercalate "," l) "CSV Formula" =
        (l.map jsToLowerCase).contains "csv formula" := by
  decide

/-- Substring test versus membership test: the Text Override case. -/
lemma includes_text_bridge :
    ∀ l ∈ ALL_SOURCE_TYPES.sublists,
      jsIncludes (String.intercalate "," l) "Text Override" =
        (l.map jsToLowerCase).contains "text override" := by
  decide

/-- Inversion of the editor branch in terms of the four membership tests. -/
lemma branch_inv (l : List String) :
    (updateSourceDetailsBranch l = SourceEditor.linkPicker ↔
      (l.map jsToLowerCase).contains "link" = true) ∧
    (updateSourceDetailsBranch l = SourceEditor.formulaEditor ↔
      ((l.map jsToLowerCase).contains "link" = false ∧
       (l.map jsToLowerCase).contains "csv formula" = true)) ∧
    (updateSourceDetailsBranch l = SourceEditor.textOverrideInput ↔
      ((l.map jsToLowerCase).contains "link" = false ∧
       (l.map jsToLowerCase).contains "csv formula" = false ∧
       (l.map jsToLowerCase).contains "text override" = true)) ∧
    (updateSourceDetailsBranch l = SourceEditor.csvLabel ↔
      ((l.map jsToLowerCase).contains "link" = false ∧
       (l.map jsToLowerCase).contains "csv formula" = false ∧
       (l.map jsToLowerCase).contains "text override" = false ∧
       (l.map jsToLowerCase).contains "csv" = true)) ∧
    (updateSourceDetailsBranch l = SourceEditor.dash ↔
      ((l.map jsToLowerCase).contains "link" = false ∧
       (l.map jsToLowerCase).contains "csv formula" = false ∧
       (l.map jsToLowerCase).contains "text override" = false ∧
       (l.map jsToLowerCase).contains "csv" = false)) := by
  unfold updateSourceDetailsBranch
  cases h1 : (l.map jsToLowerCase).contains "link" <;>
    cases h2 : (l.map jsToLowerCase).contains "csv formula" <;>
      cases h3 : (l.map jsToLowerCase).contains "text override" <;>
        cases h4 : (l.map jsToLowerCase).contains "csv" <;>
          simp

/-- In the Link branch of the payload builder, the formula and static
auxiliary fields are nulled on every inner path. -/
lemma getRulePayload_link_branch (allRules : List Rule) (row : RowState)
    (h : jsIncludes (String.intercalate "," row.source_type_options) "Link" = true) :
    (getRulePayload allRules row).formula_template = none ∧
    (getRulePayload allRules row).static_value = none := by
  cases hl : row.link_source_value with
  | none => simp [getRulePayload, h, hl]
  | some v =>
    by_cases hv : v = ""
    · simp [getRulePayload, h, hl, hv]
    · cases hf : allRules.find? (fun r => r.id == v) <;>
        simp [getRulePayload, h, hl, hv, hf]

/-- In the CSV Formula branch, the link and static auxiliary fields are
nulled on every inner path. -/
lemma getRulePayload_formula_branch (allRules : List Rule) (row : RowState)
    (h1 : jsIncludes (String.intercalate "," row.source_type_options) "Link" = false)
    (h2 : jsIncludes (String.intercalate "," row.source_type_options) "CSV Formula" = true) :
    (getRulePayload allRules row).link_table_lookup = none ∧
    (getRulePayload allRules row).link_field_lookup = none ∧
    (getRulePayload allRules row).static_value = none := by
  cases hf : row.formula_input with
  | none => simp [getRulePayload, h1, h2, hf]
  | some v =>
    by_cases hv : v = "" <;> simp [getRulePayload, h1, h2, hf, hv]

/-- In the Text Override branch, the link and formula auxiliary fields are
nulled on every inner path. -/
lemma getRulePayload_text_branch (allRules : List Rule) (row : RowState)
    (h1 : jsIncludes (String.intercalate "," row.source_type_options) "Link" = false)
    (h2 : jsIncludes (String.intercalate "," row.source_type_options) "CSV Formula" = false)
    (h3 : jsIncludes (String.intercalate "," row.source_type_options) "Text Override" = true) :
    (getRulePayload allRules row).link_table_lookup = none ∧
    (getRulePayload allRules row).link_field_lookup = none ∧
    (getRulePayload allRules row).formula_template = none := by
  cases ht : row.text_override_input with
  | none => simp [getRulePayload, h1, h2, h3, ht]
  | some v =>
    by_cases hv : v = "" <;> simp [getRulePayload, h1, h2, h3, ht, hv]

/-- When none of the three auxiliary branches is selected, all four
auxiliary fields are nulled. -/
lemma getRulePayload_else_branch (allRules : List Rule) (row : RowState)
    (h1 : jsIncludes (String.intercalate "," row.source_type_options) "Link" = false)
    (h2 : jsIncludes (String.intercalate "," row.source_type_options) "CSV Formula" = false)
    (h3 : jsIncludes (String.intercalate "," row.source_type_options) "Text Override" = false) :
    (getRulePayload allRules row).link_table_lookup = none ∧
    (getRulePayload allRules row).link_field_lookup = none ∧
    (getRulePayload allRules row).formula_template = none ∧
    (getRulePayload allRules row).static_value = none := by
  simp [getRulePayload, h1, h2, h3]

/-- C2: for every rule row state whose selected source kinds come from the
fixed option list, the payload populates only the auxiliary fields of the
branch selected by the active source kind, and every auxiliary field not
belonging to that branch is null. -/
theorem c2_aux_fields_exclusive (allRules : List Rule) (row : RowState)
    (hsub : row.source_type_options.Sublist ALL_SOURCE_TYPES) :
    (updateSourceDetailsBranch row.source_type_options = SourceEditor.linkPicker →
      (getRulePayload allRules row).formula_template = none ∧
      (getRulePayload allRules row).static_value = none) ∧
    (updateSourceDetailsBranch row.source_type_options = SourceEditor.formulaEditor →
      (getRulePayload allRules row).link_table_lookup = none ∧
      (getRulePayload allRules row).link_field_lookup = none ∧
      (getRulePayload allRules row).static_value = none) ∧
    (updateSourceDetailsBranch row.source_type_options = SourceEditor.textOverrideInput →
      (getRulePayload allRules row).link_table_lookup = none ∧
      (getRulePayload allRules row).link_field_lookup = none ∧
      (getRulePayload allRules row).formula_template = none) ∧
    (updateSourceDetailsBranch row.source_type_options = SourceEditor.csvLabel ∨
        updateSourceDetailsBranch row.source_type_options = SourceEditor.dash →
      (getRulePayload allRules row).link_table_lookup = none ∧
      (getRulePayload allRules row).link_field_lookup = none ∧
      (getRulePayload allRules row).formula_template = none ∧
      (getRulePayload allRules row).static_value = none) := by
  have hmem := List.mem_sublists.mpr hsub
  have bL := includes_link_bridge _ hmem
  have bF := includes_formula_bridge _ hmem
  have bT := includes_text_bridge _ hmem
  have hinv := branch_inv row.source_type_options
  refine ⟨?_, ?_, ?_, ?_⟩
  · intro h
    have hc := hinv.1.mp h
    exact getRulePayload_link_branch allRules row (by rw [bL, hc])
  · intro h
    obtain ⟨hc1, hc2⟩ := hinv.2.1.mp h
    exact getRulePayload_formula_branch allRules row (by rw [bL, hc1]) (by rw [bF, hc2])
  · intro h
    obtain ⟨hc1, hc2, hc3⟩ := hinv.2.2.1.mp h
    exact getRulePayload_text_branch allRules row
      (by rw [bL, hc1]) (by rw [bF, hc2]) (by rw [bT, hc3])
  · intro h
    rcases h with h | h
    · obtain ⟨hc1, hc2, hc3, _⟩ := hinv.2.2.2.1.mp h
      exact getRulePayload_else_branch allRules row
        (by rw [bL, hc1]) (by rw [bF, hc2]) (by rw [bT, hc3])
    · obtain ⟨hc1, hc2, hc3, _⟩ := hinv.2.2.2.2.mp h
      exact getRulePayload_else_branch allRules row
        (by rw [bL, hc1]) (by rw [bF, hc2]) (by rw [bT, hc3])

/-- A row with both Link and CSV Formula selected and stale data sitting in
the formula editor state: the Link branch governs. -/
def sampleRowStale : RowState :=
  { dataset_id := "9", rule_name := "Linked", field_role := "line",
    destination_field := "description", source_type_options := ["CSV Formula", "Link"],
    is_required := some false, is_hidden := false, is_base_rule := false,
    default_transformation := "",
    link_source_value := some "5", formula_input := some "stale-formula" }

/-- Witness for C2: on the stale-data row the Link branch is active and the
formula and static fields of the payload are null. -/
theorem c2_aux_fields_exclusive_witness :
    (getRulePayload [] sampleRowStale).formula_template = none ∧
    (getRulePayload [] sampleRowStale).static_value = none :=
  (c2_aux_fields_exclusive [] sampleRowStale (by decide)).1 (by decide)

lemma lexLe_total : ∀ as bs : List Char, lexLe as bs = true ∨ lexLe bs as = true := by
  intro as
  induction as with
  | nil => intro bs; left; simp [lexLe]
  | cons a as ih =>
    intro bs
    cases bs with
    | nil => right; simp [lexLe]
    | cons b bs =>
      by_cases hab : a = b
      · subst hab
        rcases ih bs with h | h
        · left; simp [lexLe, h]
        · right; simp [lexLe, h]
      · rcases lt_trichotomy a b with h | h | h
        · left; simp [lexLe, hab, h]
        · exact absurd h hab
        · right
          have hba : ¬ b = a := fun hh => hab hh.symm
          simp [lexLe, hba, h]

lemma lexLe_trans :
    ∀ as bs cs : List Char,
      lexLe as bs = true → lexLe bs cs = true → lexLe as cs = true := by
  intro as
  induction as with
  | nil => intro bs cs _ _; simp [lexLe]
  | cons a as ih =>
    intro bs cs h1 h2
    cases bs with
    | nil => simp [lexLe] at h1
    | cons b bs =>
      cases cs with
      | nil => simp [lexLe] at h2
      | cons c cs =>
        by_cases hab : a = b <;> by_cases hbc : b = c
        · subst hab; subst hbc
          simp only [lexLe, if_pos rfl] at h1 h2 ⊢
          exact ih bs cs h1 h2
        · subst hab
          simp only [lexLe, if_pos rfl, if_neg hbc, decide_eq_true_eq] at h2 ⊢
          exact h2
        · subst hbc
          simp only [lexLe, if_neg hab, decide_eq_true_eq] at h1 ⊢
          exact h1
        · simp only [lexLe, if_neg hab, if_neg hbc, decide_eq_true_eq] at h1 h2
          have hac : a < c := lt_trans h1 h2
          have hne : ¬ a = c := ne_of_lt hac
          simp [lexLe, hne, hac]

/-- The sort comparator of `renderRules` (line 218), as a total preorder:
`ruleLe a b` is true exactly when the comparator value
`(roleOrder(a) - roleOrder(b)) || localeCompare(a.rule_name, b.rule_name)`
is not positive, i.e. the sort keeps `a` no later than `b`. -/
def ruleLe (a b : Rule) : Bool :=
  decide (roleOrderJs a.field_role < roleOrderJs b.field_role) ||
    (decide (roleOrderJs a.field_role = roleOrderJs b.field_role) &&
      jsStringLe a.rule_name b.rule_name)

/-- The comparator as a proposition, for the sorting lemmas. -/
def RuleLe (a b : Rule) : Prop := ruleLe a b = true

instance : DecidableRel RuleLe := fun a b => by
  unfold RuleLe
  infer_instance

instance : IsTotal Rule RuleLe := by
  constructor
  intro a b
  unfold RuleLe ruleLe
  simp only [Bool.or_eq_true, Bool.and_eq_true, decide_eq_true_eq]
  rcases Nat.lt_trichotomy (roleOrderJs a.field_role) (roleOrderJs b.field_role) with h | h | h
  · exact Or.inl (Or.inl h)
  · rcases lexLe_total a.rule_name.data b.rule_name.data with hs | hs
    · exact Or.inl (Or.inr ⟨h, hs⟩)
    · exact Or.inr (Or.inr ⟨h.symm, hs⟩)
  · exact Or.inr (Or.inl h)

instance : IsTrans Rule RuleLe := by
  constructor
  intro a b c h1 h2
  unfold RuleLe ruleLe at h1 h2 ⊢
  simp only [Bool.or_eq_true, Bool.and_eq_true, decide_eq_true_eq] at h1 h2 ⊢
  rcases h1 with h1 | ⟨h1e, h1s⟩ <;> rcases h2 with h2 | ⟨h2e, h2s⟩
  · exact Or.inl (Nat.lt_trans h1 h2)
  · exact Or.inl (h2e ▸ h1)
  · exact Or.inl (h1e ▸ h2)
  · exact Or.inr ⟨h1e.trans h2e, lexLe_trans _ _ _ h1s h2s⟩

/-- The in-place sort of `renderRules` (line 218): a stable sort by the
comparator, modelled by insertion sort. -/
def sortRulesJs (rules : List Rule) : List Rule :=
  List.insertionSort RuleLe rules

/-- `renderRules` (lines 212-230): sorts the collection canonically, then
splits rows between the base-rules body and the additional-rules body. -/
def renderRules (rules : List Rule) : List Rule × List Rule :=
  let sorted := sortRulesJs rules
  (sorted.filter (fun r => r.is_base_rule), sorted.filter (fun r => !r.is_base_rule))

/-- Helper to build a rule record with only the sort-relevant fields set. -/
def mkSimpleRule (i n role dest : String) : Rule :=
  { id := i, rule_name := n, field_role := role, destination_field := dest,
    source_type_options := "" }

def ruleLineB : Rule := mkSimpleRule "1" "B" "line" "description"

def ruleHeaderA : Rule := mkSimpleRule "2" "A" "header" "notes"

def ruleLineA : Rule := mkSimpleRule "3" "A" "line" "quantity"

def ruleUnknownZ : Rule := mkSimpleRule "4" "Z" "custom" "x"

/-- C7: the canonical ordering sorts ascending by role order then rule
name (the sorted output is pairwise ordered under the comparator and is a
permutation of the input), a rule with an unknown role gets order value 99
and sorts strictly after every rule with a known role, and the concrete
list [line/B, header/A, line/A] sorts to [header/A, line/A, line/B]. -/
theorem c7_canonical_ordering :
    sortRulesJs [ruleLineB, ruleHeaderA, ruleLineA] = [ruleHeaderA, ruleLineA, ruleLineB] ∧
    (∀ l : List Rule, List.Sorted RuleLe (sortRulesJs l)) ∧
    (∀ l : List Rule, (sortRulesJs l).Perm l) ∧
    (∀ a b : Rule, a.field_role ∈ ALL_ROLES → b.field_role ∉ ALL_ROLES →
      roleOrderJs b.field_role = 99 ∧ RuleLe a b ∧ ¬ RuleLe b a) := by
  refine ⟨by decide, fun l => List.sorted_insertionSort RuleLe l,
    fun l => List.perm_insertionSort RuleLe l, ?_⟩
  intro a b ha hb
  have hb99 : roleOrderJs b.field_role = 99 := by
    simp only [ALL_ROLES, List.mem_cons, List.not_mem_nil, or_false, not_or] at hb
    obtain ⟨h1, h2, h3, h4, h5⟩ := hb
    simp [roleOrderJs, h1, h2, h3, h4, h5]
  have ha5 : roleOrderJs a.field_role ≤ 5 := by
    simp only [ALL_ROLES, List.mem_cons, List.not_mem_nil, or_false] at ha
    rcases ha with h | h | h | h | h <;> rw [h] <;> decide
  refine ⟨hb99, ?_, ?_⟩
  · unfold RuleLe ruleLe
    simp only [Bool.or_eq_true, decide_eq_true_eq]
    left
    omega
  · unfold RuleLe ruleLe
    simp only [Bool.or_eq_true, Bool.and_eq_true, decide_eq_true_eq, not_or]
    constructor
    · omega
    · intro hcon
      omega

/-- Witness for C7 part 4 at a known-role rule and an unknown-role rule. -/
theorem c7_canonical_ordering_witness :
    roleOrderJs ruleUnknownZ.field_role = 99 ∧
    RuleLe ruleHeaderA ruleUnknownZ ∧ ¬ RuleLe ruleUnknownZ ruleHeaderA :=
  c7_canonical_ordering.2.2.2 ruleHeaderA ruleUnknownZ (by decide) (by decide)

/-- The candidate filter of `populateLinkSourceDropdown` (lines 313-317):
drop the rule being edited and every rule whose own source kinds include
Link. -/
def linkableRules (allRules : List Rule) (currentRowId : String) : List Rule :=
  allRules.filter fun r =>
    !(r.id == currentRowId) &&
      !((r.source_type_options != "") && jsIncludes r.source_type_options "Link")

/-- C5: the linkable candidates never include the rule being edited, never
include a rule whose own source kinds include Link, and are in canonical
order whenever the store is (which `renderRules` guarantees, since it
sorts `allRules` in place before any dropdown is populated). -/
theorem c5_linkable_candidates (store : List Rule) (x : String) :
    (∀ r ∈ linkableRules store x, ¬ r.id = x) ∧
    (∀ r ∈ linkableRules store x, jsIncludes r.source_type_options "Link" = false) ∧
    (List.Sorted RuleLe store → List.Sorted RuleLe (linkableRules store x)) ∧
    (∀ fetched : List Rule, List.Sorted RuleLe (linkableRules (sortRulesJs fetched) x)) := by
  refine ⟨?_, ?_, fun hs => List.Pairwise.filter _ hs,
    fun fetched => List.Pairwise.filter _ (List.sorted_insertionSort RuleLe fetched)⟩
  · intro r hr he
    have h := (List.mem_filter.mp hr).2
    simp only [Bool.and_eq_true] at h
    obtain ⟨h1, _⟩ := h
    rw [Bool.not_eq_true'] at h1
    exact absurd he (by simpa using h1)
  · intro r hr
    have h := (List.mem_filter.mp hr).2
    simp only [Bool.and_eq_true] at h
    obtain ⟨_, h2⟩ := h
    rw [Bool.not_eq_true'] at h2
    rcases Bool.and_eq_false_iff.mp h2 with h3 | h3
    · have he : r.source_type_options = "" := by simpa using h3
      rw [he]
      decide
    · exact h3

/-- Witness for C5 on a concrete two-rule store in canonical order. -/
theorem c5_linkable_candidates_witness :
    (¬ ruleLineA.id = "1") ∧
    jsIncludes ruleLineA.source_type_options "Link" = false ∧
    List.Sorted RuleLe (linkableRules [ruleHeaderA, ruleLineA] "1") :=
  ⟨(c5_linkable_candidates [ruleHeaderA, ruleLineA] "1").1 ruleLineA (by decide),
   (c5_linkable_candidates [ruleHeaderA, ruleLineA] "1").2.1 ruleLineA (by decide),
   (c5_linkable_candidates [ruleHeaderA, ruleLineA] "1").2.2.1 (by decide)⟩

def ruleIgnoreX : Rule := mkSimpleRule "7" "IgnoreMe" "ignore" "x"

/-- C6 counterexample: in a store holding exactly one rule whose role is
`ignore`, no other rule shares its (role, destination_field) pair, the
forward lookup emits (null, "x") because the role-to-table map has no
entry for `ignore`, and the reconstruction scan therefore recovers no rule
id at all, not the rule's own id. -/
theorem c6_roundtrip_counterexample :
    (∀ r' ∈ [ruleIgnoreX], r'.field_role = ruleIgnoreX.field_role →
      r'.destination_field = ruleIgnoreX.destination_field → r'.id = ruleIgnoreX.id) ∧
    ¬ reconstructLinkedRuleId [ruleIgnoreX]
        (forwardLookup ruleIgnoreX).1 (forwardLookup ruleIgnoreX).2 = some ruleIgnoreX.id := by
  decide

/-- C6 amended: the round-trip law holds for every rule whose role is one
of the four table-mapped roles and whose destination field is non-empty,
provided no other rule in the store shares its (field_role,
destination_field) pair. -/
theorem c6_roundtrip_amended (store : List Rule) (r : Rule)
    (hr : r ∈ store)
    (hrole : r.field_role ∈ ["header", "item", "line", "account"])
    (hdest : r.destination_field ≠ "")
    (huniq : ∀ r' ∈ store, r'.field_role = r.field_role →
      r'.destination_field = r.destination_field → r'.id = r.id) :
    reconstructLinkedRuleId store (forwardLookup r).1 (forwardLookup r).2 = some r.id := by
  have hmaps : ∃ t : String, forwardTableMap r.field_role = some t ∧
      reverseTableMap t = some r.field_role ∧ t ≠ "" := by
    simp only [List.mem_cons, List.not_mem_nil, or_false] at hrole
    rcases hrole with h | h | h | h
    · exact ⟨"supplier_invoice_headers", by rw [h]; decide, by rw [h]; decide, by decide⟩
    · exact ⟨"supplier_invoice_items", by rw [h]; decide, by rw [h]; decide, by decide⟩
    · exact ⟨"supplier_invoice_lines", by rw [h]; decide, by rw [h]; decide, by decide⟩
    · exact ⟨"supplier_account", by rw [h]; decide, by rw [h]; decide, by decide⟩
  obtain ⟨t, hfwd, hrev, ht⟩ := hmaps
  unfold forwardLookup
  rw [hfwd]
  unfold reconstructLinkedRuleId
  have htruthy : (jsTruthyOptStr (some t) && jsTruthyOptStr (some r.destination_field)) = true := by
    simp [jsTruthyOptStr, ht, hdest]
  rw [if_pos htruthy]
  simp only [Option.getD_some]
  unfold reverseLookupId
  have hpr : ((reverseTableMap t == some r.field_role) &&
      (r.destination_field == r.destination_field)) = true := by
    rw [hrev]
    simp
  have hsome : (store.find? fun r' => (reverseTableMap t == some r'.field_role) &&
      (r'.destination_field == r.destination_field)).isSome = true :=
    List.find?_isSome.mpr ⟨r, hr, hpr⟩
  obtain ⟨r0, hfind⟩ := Option.isSome_iff_exists.mp hsome
  have hp0 := List.find?_some hfind
  have hmem0 := List.mem_of_find?_eq_some hfind
  simp only [Bool.and_eq_true, beq_iff_eq] at hp0
  obtain ⟨hp1, hp2⟩ := hp0
  have hrole0 : r.field_role = r0.field_role := Option.some.inj (hrev.symm.trans hp1)
  have hid : r0.id = r.id := huniq r0 hmem0 hrole0.symm hp2
  rw [hfind]
  simp [hid]

def ruleHeaderInv : Rule := mkSimpleRule "11" "Invoice Number" "header" "invoice_number"

/-- Witness for the amended C6 on a one-rule store with a header-role rule. -/
theorem c6_roundtrip_amended_witness :
    reconstructLinkedRuleId [ruleHeaderInv]
      (forwardLookup ruleHeaderInv).1 (forwardLookup ruleHeaderInv).2 = some ruleHeaderInv.id :=
  c6_roundtrip_amended [ruleHeaderInv] ruleHeaderInv
    (by decide) (by decide) (by decide) (by decide)

lemma isPrefixOf_append (l t : List Char) : List.isPrefixOf l (l ++ t) = true := by
  induction l with
  | nil => simp [List.isPrefixOf]
  | cons a as ih => simp [List.isPrefixOf, ih]

lemma charsSearch_of_isPrefix {pat l : List Char} (h : List.isPrefixOf pat l = true) :
    charsSearch pat l = true := by
  cases l with
  | nil => simpa [charsSearch] using h
  | cons c rest => simp [charsSearch, h]

lemma charsSearch_cons {pat rest : List Char} (c : Char)
    (h : charsSearch pat rest = true) : charsSearch pat (c :: rest) = true := by
  simp [charsSearch, h]

lemma charsSearch_infix (pat : List Char) :
    ∀ l1 l2 : List Char, charsSearch pat (l1 ++ pat ++ l2) = true := by
  intro l1
  induction l1 with
  | nil => intro l2; exact charsSearch_of_isPrefix (isPrefixOf_append pat l2)
  | cons c l1 ih => intro l2; exact charsSearch_cons c (ih l2)

lemma jsIncludes_of_data_split (s pat : String)
    (h : ∃ l1 l2 : List Char, s.data = l1 ++ pat.data ++ l2) :
    jsIncludes s pat = true := by
  obtain ⟨l1, l2, hs⟩ := h
  unfold jsIncludes
  rw [hs]
  exact charsSearch_infix pat.data l1 l2

/-- The outcome of one `fetch` save call as observed by `saveAllChanges`:
success, or failure with the optional server-supplied `message`. -/
inductive ApiResult where
  | ok
  | fail (message : Option String)
deriving DecidableEq

/-- The observable outcome of one `saveAllChanges` run: the success
counter, the per-row error messages shown, the aggregate success message
shown when the counter is positive, and how many re-fetches of the rule
collection are issued after all saves settle. -/
structure SaveTrace where
  successCount : Nat
  errorMessages : List String
  successMessages : List String
  fetchCalls : Nat
deriving DecidableEq

/-- The error text shown for one failed row (lines 259 and 262): the
server message when present, else the generic text naming the payload's
rule_name, wrapped in the caught-error template naming the row's
rule_name input value. -/
def saveErrorText (row : RowState) (payload : RulePayload) (serverMessage : Option String) : String :=
  "Error saving \"" ++ row.rule_name ++ "\": " ++
    serverMessage.getD ("Failed to save rule: " ++ payload.rule_name)

/-- One row's save attempt (lines 249-264): each promise catches its own
failure, so a row either counts as a success (`none`) or produces exactly
its own error message, independently of every other row. -/
def saveRowError (allRules : List Rule) (api : RowState → ApiResult) (row : RowState) :
    Option String :=
  match api row with
  | ApiResult.ok => none
  | ApiResult.fail m => some (saveErrorText row (getRulePayload allRules row) m)

/-- `saveAllChanges` (lines 243-268): every row is saved, failures are
collected individually, successes counted, and after all promises settle
one success message is shown when any save succeeded and exactly one
re-fetch is issued. -/
def saveAllChanges (allRules : List Rule) (api : RowState → ApiResult)
    (rows : List RowState) : SaveTrace :=
  let errs := rows.filterMap (saveRowError allRules api)
  let successCount := rows.countP (fun row => (saveRowError allRules api row).isNone)
  { successCount := successCount,
    errorMessages := errs,
    successMessages :=
      if successCount > 0 then
        ["Successfully saved " ++ toString successCount ++ " rule(s)."]
      else [],
    fetchCalls := 1 }

/-- C8: in a batch save where exactly one row fails, every other row's
save still completes and is counted (successCount = n - 1), exactly one
error message is shown and it names the failing row's rule_name, and
exactly one re-fetch of the rule collection follows. -/
theorem c8_batch_save_partial_failure (allRules : List Rule) (api : RowState → ApiResult)
    (pre post : List RowState) (bad : RowState) (m : Option String)
    (hbad : api bad = ApiResult.fail m)
    (hok : ∀ row ∈ pre ++ post, api row = ApiResult.ok) :
    (saveAllChanges allRules api (pre ++ bad :: post)).successCount =
      (pre ++ bad :: post).length - 1 ∧
    (saveAllChanges allRules api (pre ++ bad :: post)).errorMessages =
      [saveErrorText bad (getRulePayload allRules bad) m] ∧
    jsIncludes (saveErrorText bad (getRulePayload allRules bad) m) bad.rule_name = true ∧
    (saveAllChanges allRules api (pre ++ bad :: post)).fetchCalls = 1 := by
  have hpre : ∀ row ∈ pre, saveRowError allRules api row = none := by
    intro row hrow
    unfold saveRowError
    rw [hok row (List.mem_append.mpr (Or.inl hrow))]
  have hpost : ∀ row ∈ post, saveRowError allRules api row = none := by
    intro row hrow
    unfold saveRowError
    rw [hok row (List.mem_append.mpr (Or.inr hrow))]
  have hbadrow : saveRowError allRules api bad =
      some (saveErrorText bad (getRulePayload allRules bad) m) := by
    unfold saveRowError
    rw [hbad]
  refine ⟨?_, ?_, ?_, rfl⟩
  · show (pre ++ bad :: post).countP (fun row => (saveRowError allRules api row).isNone) = _
    rw [List.countP_append, List.countP_cons]
    have h1 : pre.countP (fun row => (saveRowError allRules api row).isNone) = pre.length := by
      refine List.countP_eq_length.mpr ?_
      intro row hrow
      simp [hpre row hrow]
    have h2 : post.countP (fun row => (saveRowError allRules api row).isNone) = post.length := by
      refine List.countP_eq_length.mpr ?_
      intro row hrow
      simp [hpost row hrow]
    rw [h1, h2, if_neg (by simp [hbadrow])]
    simp only [List.length_append, List.length_cons]
    omega
  · show (pre ++ bad :: post).filterMap (saveRowError allRules api) = _
    rw [List.filterMap_append, List.filterMap_cons, hbadrow]
    rw [List.filterMap_eq_nil_iff.mpr hpre, List.filterMap_eq_nil_iff.mpr hpost]
    simp
  · apply jsIncludes_of_data_split
    refine ⟨"Error saving \"".data,
      ("\": " ++ m.getD ("Failed to save rule: " ++
        (getRulePayload allRules bad).rule_name)).data, ?_⟩
    unfold saveErrorText
    simp [String.data_append, List.append_assoc]

def sampleRowBad : RowState :=
  { dataset_id := "8", rule_name := "Bad", field_role := "line",
    destination_field := "quantity", source_type_options := ["CSV"],
    is_required := some false, is_hidden := false, is_base_rule := false,
    default_transformation := "" }

def sampleApi : RowState → ApiResult :=
  fun row => if row.rule_name = "Bad" then ApiResult.fail (some "boom") else ApiResult.ok

/-- Witness for C8: batch of three rows where only the middle one fails. -/
theorem c8_batch_save_partial_failure_witness :
    (saveAllChanges [] sampleApi ([sampleRowBase] ++ sampleRowBad :: [sampleRowAdd])).successCount =
      ([sampleRowBase] ++ sampleRowBad :: [sampleRowAdd]).length - 1 ∧
    (saveAllChanges [] sampleApi ([sampleRowBase] ++ sampleRowBad :: [sampleRowAdd])).errorMessages =
      [saveErrorText sampleRowBad (getRulePayload [] sampleRowBad) (some "boom")] ∧
    jsIncludes (saveErrorText sampleRowBad (getRulePayload [] sampleRowBad) (some "boom"))
      sampleRowBad.rule_name = true ∧
    (saveAllChanges [] sampleApi ([sampleRowBase] ++ sampleRowBad :: [sampleRowAdd])).fetchCalls = 1 :=
  c8_batch_save_partial_failure [] sampleApi [sampleRowBase] [sampleRowAdd] sampleRowBad
    (some "boom") (by decide) (by decide)

/-- The JSON values appearing in a serialized rule payload. -/
inductive JsonValue where
  | jstr : String → JsonValue
  | jbool : Bool → JsonValue
  | jnull : JsonValue
deriving DecidableEq

def jsonOfOptStr : Option String → JsonValue
  | some s => JsonValue.jstr s
  | none => JsonValue.jnull

/-- The object literal of `getRulePayload` (lines 126-141) as the ordered
key/value list `JSON.stringify` serializes. -/
def payloadJson (p : RulePayload) : List (String × JsonValue) :=
  [("id", jsonOfOptStr p.id),
   ("rule_name", JsonValue.jstr p.rule_name),
   ("field_role", JsonValue.jstr p.field_role),
   ("destination_field", JsonValue.jstr p.destination_field),
   ("source_type_options", JsonValue.jstr p.source_type_options),
   ("rule_type", JsonValue.jstr p.rule_type),
   ("is_required", JsonValue.jbool p.is_required),
   ("is_hidden", JsonValue.jbool p.is_hidden),
   ("is_base_rule", JsonValue.jbool p.is_base_rule),
   ("link_table_lookup", jsonOfOptStr p.link_table_lookup),
   ("link_field_lookup", jsonOfOptStr p.link_field_lookup),
   ("formula_template", jsonOfOptStr p.formula_template),
   ("static_value", jsonOfOptStr p.static_value),
   ("default_transformation", jsonOfOptStr p.default_transformation)]

/-- Modelled from the spec: the exact Rule/RulePayload field-name set the
data model of section 3 lists for the wire format. -/
def specPayloadFieldNames : List String :=
  ["id", "rule_name", "field_role", "destination_field", "source_type_options",
   "is_required", "is_hidden", "is_base_rule", "link_table_lookup",
   "link_field_lookup", "formula_template", "static_value", "default_transformation"]

/-- C9 counterexample: a concrete payload built by getRulePayload carries
the key rule_type, which is not in the claimed field set, so the payload
field set is not exactly the data-model set. -/
theorem c9_payload_fields_counterexample :
    "rule_type" ∈ (payloadJson (getRulePayload [] sampleRowAdd)).map Prod.fst ∧
    "rule_type" ∉ specPayloadFieldNames := by
  decide

/-- C9 amended: every payload has exactly the data-model field names plus
the one additional field rule_type, which is always the string user_set. -/
theorem c9_payload_fields_amended (p : RulePayload) (allRules : List Rule) (row : RowState) :
    ((payloadJson p).map Prod.fst).Perm ("rule_type" :: specPayloadFieldNames) ∧
    (getRulePayload allRules row).rule_type = "user_set" := by
  constructor
  · simp only [payloadJson, List.map_cons, List.map_nil]
    decide
  · simp [getRulePayload]

/-- The rule filter of `populateFormulaBuilderDropdown` (line 88): every
rule from `allRules` except the one whose id equals the current row's
dataset id is offered as a placeholder choice. -/
def formulaBuilderRules (allRules : List Rule) (currentRuleId : String) : List Rule :=
  allRules.filter fun r => !(r.id == currentRuleId)

/-- Line 147: the stored comma list split into selected values, empty
when the stored string is falsy. -/
def selectedSourceTypesArray (rule : Rule) : List String :=
  if rule.source_type_options = "" then [] else jsSplitComma rule.source_type_options

/-- `createRuleRow` (lines 144-210), restricted to the row state later
read back by `getRulePayload`: the dataset id, the data-field input
values, the multi-select selection (an option is selected when its fixed
option value occurs in the stored list), and the auxiliary editor seeded
by `updateSourceDetailsDisplay` for the active branch. -/
def createRuleRow (allRules : List Rule) (rule : Rule) (isBase : Bool) : RowState :=
  let selected := ALL_SOURCE_TYPES.filter fun t => (selectedSourceTypesArray rule).contains t
  let currentLinkedRuleId :=
    reconstructLinkedRuleId allRules rule.link_table_lookup rule.link_field_lookup
  let currentFormulaValue :=
    match rule.formula_template with
    | some v => if v = "" then rule.static_value.getD "" else v
    | none => rule.static_value.getD ""
  let branch := updateSourceDetailsBranch selected
  { dataset_id := rule.id,
    rule_name := rule.rule_name,
    field_role := rule.field_role,
    destination_field := rule.destination_field,
    source_type_options := selected,
    is_required := some (isBase || rule.is_required),
    is_hidden := rule.is_hidden,
    is_base_rule := rule.is_base_rule,
    default_transformation := rule.default_transformation.getD "",
    link_source_value :=
      if branch = SourceEditor.linkPicker then some (currentLinkedRuleId.getD "") else none,
    formula_input :=
      if branch = SourceEditor.formulaEditor then some currentFormulaValue else none,
    text_override_input :=
      if branch = SourceEditor.textOverrideInput then some currentFormulaValue else none }

/-- The page state the script mutates: the in-memory rule collection
`allRules`, the transient-id counter, and the rows of the two table
bodies. -/
structure AppState where
  allRules : List Rule
  newRuleCounter : Nat
  baseRows : List RowState
  additionalRows : List RowState
deriving DecidableEq

/-- The fresh transient rule literal of `addRow` (line 271). -/
def addRowNewRule (counter : Nat) (isBase : Bool) : Rule :=
  { id := "new_" ++ toString counter, rule_name := "", field_role := "",
    destination_field := "", source_type_options := "",
    is_required := isBase, is_hidden := false, is_base_rule := isBase }

/-- `addRow` (lines 270-278): bumps the counter, builds a transient row,
appends it to the matching table body, and touches nothing else. -/
def addRow (isBase : Bool) (s : AppState) : AppState :=
  let counter := s.newRuleCounter + 1
  let newRow := createRuleRow s.allRules (addRowNewRule counter isBase) isBase
  { s with
    newRuleCounter := counter,
    baseRows := if isBase then s.baseRows ++ [newRow] else s.baseRows,
    additionalRows := if isBase then s.additionalRows else s.additionalRows ++ [newRow] }

/-- A successful `fetchRules` (lines 232-241): `allRules` is replaced
wholesale by the fetched collection, which `renderRules` sorts in place
and re-renders into the two table bodies. -/
def fetchRulesSuccess (fetched : List Rule) (s : AppState) : AppState :=
  let sorted := sortRulesJs fetched
  { allRules := sorted,
    newRuleCounter := s.newRuleCounter,
    baseRows := (sorted.filter (fun r => r.is_base_rule)).map
      (fun r => createRuleRow sorted r r.is_base_rule),
    additionalRows := (sorted.filter (fun r => !r.is_base_rule)).map
      (fun r => createRuleRow sorted r r.is_base_rule) }

/-- C10: adding a transient row leaves the in-memory rule collection
unchanged (only a successful fetch replaces it), so any rule record not
in the collection — in particular an unsaved transient rule — appears
neither among the linkable candidates of any row nor among the formula
placeholder choices. -/
theorem c10_add_row_frame (isBase : Bool) (s : AppState) (cid cid2 : String)
    (fetched : List Rule) :
    (addRow isBase s).allRules = s.allRules ∧
    (fetchRulesSuccess fetched s).allRules = sortRulesJs fetched ∧
    (∀ r : Rule, r ∉ s.allRules →
      r ∉ linkableRules (addRow isBase s).allRules cid ∧
      r ∉ formulaBuilderRules (addRow isBase s).allRules cid2) := by
  refine ⟨rfl, rfl, ?_⟩
  intro r hr
  constructor
  · intro hmem
    exact hr (List.mem_filter.mp hmem).1
  · intro hmem
    exact hr (List.mem_filter.mp hmem).1

def sampleState : AppState :=
  { allRules := [ruleHeaderA, ruleLineA], newRuleCounter := 0,
    baseRows := [], additionalRows := [] }

/-- Witness for C10: the first transient rule added to a two-rule store is
offered neither as a link target nor as a formula placeholder. -/
theorem c10_add_row_frame_witness :
    (addRow false sampleState).allRules = sampleState.allRules ∧
    (fetchRulesSuccess [ruleLineB] sampleState).allRules = sortRulesJs [ruleLineB] ∧
    (addRowNewRule 1 false ∉ linkableRules (addRow false sampleState).allRules "1" ∧
     addRowNewRule 1 false ∉ formulaBuilderRules (addRow false sampleState).allRules "1") :=
  ⟨(c10_add_row_frame false sampleState "1" "1" [ruleLineB]).1,
   (c10_add_row_frame false sampleState "1" "1" [ruleLineB]).2.1,
   (c10_add_row_frame false sampleState "1" "1" [ruleLineB]).2.2
     (addRowNewRule 1 false) (by decide)⟩

end MappingData
